import Mathlib

set_option maxRecDepth 100000

/-!
Shallow embedding of the water-use interval extraction and classification
algorithm of the `user-water-behavior-system-enhanced` repository.

Embedded code:
* `selectdate` / `flow_calc` from `water_analysis_enhanced_en.py` (the same
  key-point selection and classification logic is duplicated in
  `enhanced_plot_cn.py`, `create_enhanced_figure_cn`): readings of one day,
  reduced to time-of-day, sorted descending, key points selected by
  gap > 360 s plus the head row, interval volumes by adjacent difference,
  behavior labels by fixed thresholds, trailing row dropped.
* `compute_intervals` and `compute_intervals_keypoints` from `app.py`:
  ascending sort on the full timestamp, the former a plain adjacent
  difference with a positive filter, the latter the key-point variant
  taking absolute values.

Floats are modelled by `ℚ` (the thresholds 6.5 and 25.0 and the test data
are exactly representable); a pandas `NaN` cell is modelled by `none` in
`Option ℚ` (comparisons against `NaN` are false,`pd.notna` is `Option.isSome`).
The auxiliary telemetry columns (temperature, battery, signal) are carried
through the pipelines unchanged and never read, so they are omitted from
the reading structures.
-/

namespace WaterBehavior

/-- A time-of-day as carried by pandas `.dt.time`: hour, minute, second. -/
structure Tod where
  hour : Nat
  minute : Nat
  second : Nat
deriving DecidableEq, Repr

/-- A valid wall-clock time-of-day (what `pandas`/`datetime.time` always holds). -/
def Tod.Valid (t : Tod) : Prop := t.hour < 24 ∧ t.minute < 60 ∧ t.second < 60

instance (t : Tod) : Decidable t.Valid := by
  unfold Tod.Valid; infer_instance

/-- `t.hour * 3600 + t.minute * 60 + t.second`, the conversion both scripts
perform inside `time_diff_seconds`. -/
def todSeconds (t : Tod) : Int := t.hour * 3600 + t.minute * 60 + t.second

/-- `time_diff_seconds(t1, t2)` of `water_analysis_enhanced_en.py`
(`_time_diff_seconds` in `enhanced_plot_cn.py`): `0` if either argument is
missing (`pd.isna`), otherwise the difference of the second-of-day values,
with one day (`24 * 3600` seconds) added when the naive difference is
negative. -/
def time_diff_seconds (t1 t2 : Option Tod) : Int :=
  match t1, t2 with
  | some a, some b =>
    let diff := todSeconds a - todSeconds b
    if diff < 0 then diff + 24 * 3600 else diff
  | _, _ => 0

/-- One reading of the day: time-of-day (`时间计算`) and cumulative flow
(`累计流量`, cubic meters); `none` models a `NaN` flow cell. -/
structure Reading where
  t : Tod
  flow : Option ℚ
deriving DecidableEq, Repr

/-- The descending `sort_values(by='时间计算', ascending=False)` order. -/
def byTimeDesc (a b : Reading) : Prop := todSeconds b.t ≤ todSeconds a.t

instance : DecidableRel byTimeDesc := fun a b => by
  unfold byTimeDesc; infer_instance

instance : IsTotal Reading byTimeDesc :=
  ⟨fun a b => (le_total (todSeconds b.t) (todSeconds a.t)).imp id id⟩

instance : IsTrans Reading byTimeDesc :=
  ⟨fun _ _ _ h1 h2 => le_trans h2 h1⟩

/-- Sort a day's readings latest-first (`wm_data1`). -/
def sortDesc (l : List Reading) : List Reading := List.insertionSort byTimeDesc l

/-- The `时间差秒` column: `错位时间 = 时间计算.shift(1)` zipped through
`time_diff_seconds`.  Entry `0` (the head row, whose shifted time is `NaN`)
is `0`; entry `i+1` is the gap from row `i` to row `i+1`. -/
def gapsOf (s : List Reading) : List Int :=
  List.zipWith time_diff_seconds ((none : Option Tod) :: s.map fun r => some r.t)
    (s.map fun r => some r.t)

/-- Rows of `wm_data1` whose `时间差秒` exceeds 360, concatenated with
`wm_data1.head(1)` — the unsorted key-reading pool. -/
def keyCandidates (s : List Reading) : List Reading :=
  (((s.zip (gapsOf s)).filter fun p => 360 < p.2).map Prod.fst) ++ s.take 1

/-- `wm_data2` of `selectdate`: the key candidates re-sorted descending. -/
def selectKeys (s : List Reading) : List Reading := sortDesc (keyCandidates s)

/-- Full key-point selection for a day's (unordered) readings. -/
def keyReadings (l : List Reading) : List Reading := selectKeys (sortDesc l)

/-- The interval volume `1000 * (累计流量 - 错位流量)`; `NaN` (`none`)
propagates as in pandas. -/
def oVolume (a b : Option ℚ) : Option ℚ :=
  match a, b with
  | some x, some y => some (1000 * (x - y))
  | _, _ => none

/-- The `flow_calc` behavior masks on a real volume: the label column starts
empty, then the three `.loc` masks overwrite it in source order. -/
def assignBehavior (v : ℚ) : String :=
  let b := ""
  let b := if 25 < v then "Flushing" else b
  let b := if 6.5 < v ∧ v ≤ 25 then "Bucket" else b
  let b := if v ≤ 6.5 then "Small Use" else b
  b

/-- The masks on an optional volume: every comparison against `NaN` is
false, so a `NaN` volume keeps the initial empty label. -/
def assignBehaviorO (v : Option ℚ) : String :=
  match v with
  | some x => assignBehavior x
  | none => ""

/-- One row of the `flow_calc` output: time, own cumulative flow, interval
volume (`区间流量`) and behavior label (`用水行为`). -/
structure IntervalRow where
  t : Tod
  flow : Option ℚ
  volume : Option ℚ
  behavior : String
deriving DecidableEq, Repr

/-- Build the row for a reading given the shifted (`shift(-1)`) flow. -/
def mkIntervalRow (r : Reading) (nf : Option ℚ) : IntervalRow :=
  { t := r.t, flow := r.flow, volume := oVolume r.flow nf
    behavior := assignBehaviorO (oVolume r.flow nf) }

/-- The `错位流量` column: `累计流量.shift(-1)` (each row gets the next
row's flow, the last row gets `NaN`). -/
def shiftedFlows (k : List Reading) : List (Option ℚ) :=
  (k.tail.map fun r => r.flow) ++ [none]

/-- `flow_calc(wm_data2)`: shift the flow column, take the adjacent
difference scaled by 1000, classify, and drop the last row. -/
def flow_calc (k : List Reading) : List IntervalRow :=
  (List.zipWith mkIntervalRow k (shiftedFlows k)).dropLast

/-! ### Helper lemmas -/

lemma mem_zipWith {α β γ : Type} {f : α → β → γ} {l₁ : List α} {l₂ : List β} {c : γ}
    (h : c ∈ List.zipWith f l₁ l₂) :
    ∃ (i : Nat) (h₁ : i < l₁.length) (h₂ : i < l₂.length),
      c = f (l₁.get ⟨i, h₁⟩) (l₂.get ⟨i, h₂⟩) := by
  induction l₁ generalizing l₂ with
  | nil => simp at h
  | cons a as ih =>
    cases l₂ with
    | nil => simp at h
    | cons b bs =>
      rcases List.mem_cons.mp h with h0 | h1
      · exact ⟨0, by simp, by simp, h0⟩
      · obtain ⟨i, h₁, h₂, he⟩ := ih h1
        exact ⟨i + 1, by simpa using h₁, by simpa using h₂, he⟩

/-- `flow_calc` computes, for each key reading having a successor in the
list, the row built from that reading and its successor's flow. -/
lemma flow_calc_eq_pairs (k : List Reading) :
    flow_calc k = List.zipWith (fun a b => mkIntervalRow a b.flow) k k.tail := by
  induction k with
  | nil => rfl
  | cons x l ih =>
    cases l with
    | nil => rfl
    | cons y ys =>
      have hne : List.zipWith mkIntervalRow (y :: ys) (shiftedFlows (y :: ys)) ≠ [] := by
        simp [List.zipWith_eq_nil_iff, shiftedFlows]
      calc flow_calc (x :: y :: ys)
          = (mkIntervalRow x y.flow ::
              List.zipWith mkIntervalRow (y :: ys) (shiftedFlows (y :: ys))).dropLast := by
            simp [flow_calc, shiftedFlows]
        _ = mkIntervalRow x y.flow :: flow_calc (y :: ys) := by
            rw [List.dropLast_cons_of_ne_nil hne]; rfl
        _ = _ := by rw [ih]; rfl

lemma length_gapsOf (s : List Reading) : (gapsOf s).length = s.length := by
  simp [gapsOf]

lemma gapsOf_getElem?_succ (s : List Reading) (i : Nat) (a b : Reading)
    (ha : s[i]? = some a) (hb : s[i + 1]? = some b) :
    (gapsOf s)[i + 1]? = some (time_diff_seconds (some a.t) (some b.t)) := by
  simp [gapsOf, List.getElem?_zipWith, ha, hb]

lemma todSeconds_nonneg (t : Tod) : 0 ≤ todSeconds t := by
  unfold todSeconds; positivity

lemma todSeconds_lt_of_valid {t : Tod} (h : t.Valid) : todSeconds t < 86400 := by
  obtain ⟨h1, h2, h3⟩ := h
  unfold todSeconds
  omega

lemma time_diff_seconds_nonneg {a : Tod} {b : Tod} (hb : b.Valid) :
    0 ≤ time_diff_seconds (some a) (some b) := by
  have h1 := todSeconds_nonneg a
  have h2 := todSeconds_nonneg b
  have h3 := todSeconds_lt_of_valid hb
  simp only [time_diff_seconds]
  split <;> omega

/-- The behavior masks collapse to a single three-way case split. -/
lemma assignBehavior_cases (v : ℚ) :
    assignBehavior v =
      if 25 < v then "Flushing" else if 6.5 < v then "Bucket" else "Small Use" := by
  show (if v ≤ 6.5 then "Small Use"
        else if 6.5 < v ∧ v ≤ 25 then "Bucket"
        else if 25 < v then "Flushing" else "") = _
  rcases le_or_lt v 6.5 with h | h
  · rw [if_pos h, if_neg (by linarith : ¬ (25:ℚ) < v), if_neg (by linarith : ¬ (6.5:ℚ) < v)]
  · rcases le_or_lt v 25 with h2 | h2
    · rw [if_neg (by linarith : ¬ v ≤ 6.5), if_pos ⟨h, h2⟩,
        if_neg (by linarith : ¬ (25:ℚ) < v), if_pos h]
    · rw [if_neg (by linarith : ¬ v ≤ 6.5),
        if_neg (by rintro ⟨-, h3⟩; linarith : ¬ ((6.5:ℚ) < v ∧ v ≤ 25)), if_pos h2, if_pos h2]

/-- Every entry of the gap column is non-negative when all times are valid
wall-clock times (auxiliary induction for C6). -/
lemma gaps_nonneg_aux (o : Option Tod) (s : List Reading) (hval : ∀ r ∈ s, r.t.Valid) :
    ∀ g ∈ List.zipWith time_diff_seconds (o :: s.map fun r => some r.t)
      (s.map fun r => some r.t), 0 ≤ g := by
  induction s generalizing o with
  | nil => intro g hg; simp at hg
  | cons x xs ih =>
    intro g hg
    simp only [List.map_cons, List.zipWith_cons_cons] at hg
    rcases List.mem_cons.mp hg with h | h
    · subst h
      cases o with
      | none => simp [time_diff_seconds]
      | some a => exact time_diff_seconds_nonneg (hval x (by simp))
    · exact ih (some x.t) (fun r hr => hval r (by simp [hr])) g h

/-! ### Claim theorems -/

/-- C1: every emitted usage interval's behavior label (for numeric key
flows) is exactly one of `Flushing`, `Bucket`, `Small Use`, determined by
the raw signed volume `v`: `Flushing` iff `25 < v`, `Bucket` iff
`6.5 < v ≤ 25`, `Small Use` iff `v ≤ 6.5` (zero and negatives included);
in particular `v = 6.5` gives `Small Use` and `v = 25` gives `Bucket`. -/
theorem classification_partition :
    (∀ (k : List Reading), (∀ r ∈ k, r.flow.isSome) →
      ∀ row ∈ flow_calc k, ∃ v : ℚ, row.volume = some v ∧ row.behavior = assignBehavior v) ∧
    (∀ v : ℚ,
      (assignBehavior v = "Flushing" ↔ 25 < v) ∧
      (assignBehavior v = "Bucket" ↔ 6.5 < v ∧ v ≤ 25) ∧
      (assignBehavior v = "Small Use" ↔ v ≤ 6.5)) ∧
    assignBehavior (6.5 : ℚ) = "Small Use" ∧ assignBehavior (25 : ℚ) = "Bucket" := by
  refine ⟨?_, ?_, ?_, ?_⟩
  · intro k hk row hrow
    rw [flow_calc_eq_pairs] at hrow
    obtain ⟨i, h1, h2, he⟩ := mem_zipWith hrow
    have hamem : k.get ⟨i, h1⟩ ∈ k := List.get_mem k i h1
    have hbmem : k.tail.get ⟨i, h2⟩ ∈ k :=
      List.mem_of_mem_tail (List.get_mem k.tail i h2)
    obtain ⟨va, hva⟩ := Option.isSome_iff_exists.mp (hk _ hamem)
    obtain ⟨vb, hvb⟩ := Option.isSome_iff_exists.mp (hk _ hbmem)
    simp only [List.get_eq_getElem, List.getElem_tail] at hva hvb
    refine ⟨1000 * (va - vb), ?_, ?_⟩ <;>
      simp [he, mkIntervalRow, oVolume, assignBehaviorO, hva, hvb]
  · intro v
    rcases le_or_lt v 6.5 with h | h
    · have hb : assignBehavior v = "Small Use" := by
        rw [assignBehavior_cases, if_neg (by linarith : ¬ (25:ℚ) < v),
          if_neg (by linarith : ¬ (6.5:ℚ) < v)]
      exact ⟨iff_of_false (by simp [hb]) (by intro hc; linarith),
        iff_of_false (by simp [hb]) (by intro hc; linarith [hc.1]),
        iff_of_true hb h⟩
    · rcases le_or_lt v 25 with h2 | h2
      · have hb : assignBehavior v = "Bucket" := by
          rw [assignBehavior_cases, if_neg (by linarith : ¬ (25:ℚ) < v), if_pos h]
        exact ⟨iff_of_false (by simp [hb]) (by intro hc; linarith),
          iff_of_true hb ⟨h, h2⟩,
          iff_of_false (by simp [hb]) (by intro hc; linarith)⟩
      · have hb : assignBehavior v = "Flushing" := by
          rw [assignBehavior_cases, if_pos h2]
        exact ⟨iff_of_true hb h2,
          iff_of_false (by simp [hb]) (by intro hc; linarith [hc.2]),
          iff_of_false (by simp [hb]) (by intro hc; linarith)⟩
  · rw [assignBehavior_cases]; norm_num
  · rw [assignBehavior_cases]; norm_num

/-- Witness for C1's quantified first conjunct at a concrete key list. -/
theorem classification_partition_witness :
    ∃ v : ℚ, (⟨⟨8, 10, 0⟩, some 2, some 1000, "Flushing"⟩ : IntervalRow).volume = some v ∧
      (⟨⟨8, 10, 0⟩, some 2, some 1000, "Flushing"⟩ : IntervalRow).behavior = assignBehavior v :=
  classification_partition.1 [⟨⟨8, 10, 0⟩, some 2⟩, ⟨⟨8, 0, 0⟩, some 1⟩]
    (by intro r hr; fin_cases hr <;> rfl)
    ⟨⟨8, 10, 0⟩, some 2, some 1000, "Flushing"⟩
    (by norm_num [flow_calc, shiftedFlows, mkIntervalRow, oVolume,
      assignBehaviorO, assignBehavior])

/-- C2: for each key reading with a successor in the descending key list,
the interval volume is `1000 * (this.cumulative_flow − next.cumulative_flow)`
(the chronologically earlier reading's flow subtracted), kept signed. -/
theorem interval_volume_forward_difference (k : List Reading) (i : Nat)
    (a b : Reading) (va vb : ℚ)
    (ha : k[i]? = some a) (hb : k[i + 1]? = some b)
    (hva : a.flow = some va) (hvb : b.flow = some vb) :
    (flow_calc k)[i]? = some (mkIntervalRow a b.flow) ∧
    (mkIntervalRow a b.flow).volume = some (1000 * (va - vb)) := by
  constructor
  · rw [flow_calc_eq_pairs]
    simp [List.getElem?_zipWith, ha, hb]
  · simp [mkIntervalRow, oVolume, hva, hvb]

/-- Witness for C2 at a concrete two-element key list. -/
theorem interval_volume_forward_difference_witness :
    (flow_calc [⟨⟨10, 0, 0⟩, some 2⟩, ⟨⟨9, 0, 0⟩, some 1⟩])[0]? =
      some (mkIntervalRow ⟨⟨10, 0, 0⟩, some 2⟩ (some 1)) ∧
    (mkIntervalRow ⟨⟨10, 0, 0⟩, some 2⟩ (some 1)).volume = some (1000 * (2 - 1)) :=
  interval_volume_forward_difference [⟨⟨10, 0, 0⟩, some 2⟩, ⟨⟨9, 0, 0⟩, some 1⟩]
    0 ⟨⟨10, 0, 0⟩, some 2⟩ ⟨⟨9, 0, 0⟩, some 1⟩ 2 1 rfl rfl rfl rfl

/-- C6: for adjacent readings in the descending order, the computed gap is
the previous reading's second-of-day minus the current one's, plus 86400
exactly when that naive difference is negative; all entries of the gap
column are non-negative (for valid wall-clock times). -/
theorem gap_formula_nonneg (s : List Reading) (hval : ∀ r ∈ s, r.t.Valid) :
    (∀ (i : Nat) (a b : Reading), s[i]? = some a → s[i + 1]? = some b →
      (gapsOf s)[i + 1]? = some
        (if todSeconds a.t - todSeconds b.t < 0
         then todSeconds a.t - todSeconds b.t + 86400
         else todSeconds a.t - todSeconds b.t)) ∧
    ∀ g ∈ gapsOf s, 0 ≤ g := by
  constructor
  · intro i a b ha hb
    rw [gapsOf_getElem?_succ s i a b ha hb]
    simp only [time_diff_seconds]
    norm_num
  · exact gaps_nonneg_aux none s hval

/-- Witness for C6 at a concrete descending reading list. -/
theorem gap_formula_nonneg_witness :
    ((gapsOf [⟨⟨10, 0, 0⟩, some 2⟩, ⟨⟨9, 0, 0⟩, some 1⟩])[1]? =
      some (if todSeconds ⟨10, 0, 0⟩ - todSeconds ⟨9, 0, 0⟩ < 0
            then todSeconds ⟨10, 0, 0⟩ - todSeconds ⟨9, 0, 0⟩ + 86400
            else todSeconds ⟨10, 0, 0⟩ - todSeconds ⟨9, 0, 0⟩)) ∧
    0 ≤ (3600 : Int) :=
  ⟨(gap_formula_nonneg [⟨⟨10, 0, 0⟩, some 2⟩, ⟨⟨9, 0, 0⟩, some 1⟩]
      (by intro r hr; fin_cases hr <;> decide)).1
    0 ⟨⟨10, 0, 0⟩, some 2⟩ ⟨⟨9, 0, 0⟩, some 1⟩ rfl rfl,
   (gap_formula_nonneg [⟨⟨10, 0, 0⟩, some 2⟩, ⟨⟨9, 0, 0⟩, some 1⟩]
      (by intro r hr; fin_cases hr <;> decide)).2 3600 (by decide)⟩

lemma mem_sortDesc {a : Reading} {s : List Reading} : a ∈ sortDesc s ↔ a ∈ s :=
  List.mem_insertionSort _

lemma mem_take_one {α : Type} {s : List α} {r : α} : r ∈ s.take 1 ↔ s.head? = some r := by
  cases s <;> simp [eq_comm]

lemma sortDesc_sorted (s : List Reading) : (sortDesc s).Sorted byTimeDesc :=
  List.sorted_insertionSort byTimeDesc s

lemma keyReadings_sorted (l : List Reading) : (keyReadings l).Sorted byTimeDesc :=
  List.sorted_insertionSort byTimeDesc _

lemma sorted_desc_head_max (k : List Reading) (hne : k ≠ []) (hs : k.Sorted byTimeDesc) :
    ∀ x ∈ k, todSeconds x.t ≤ todSeconds (k.head hne).t := by
  cases k with
  | nil => exact absurd rfl hne
  | cons a t =>
    intro x hx
    rcases List.mem_cons.mp hx with rfl | hx
    · exact le_refl _
    · exact List.rel_of_sorted_cons hs x hx

lemma sorted_desc_getLast_le (k : List Reading) (hne : k ≠ []) (hs : k.Sorted byTimeDesc) :
    ∀ x ∈ k, todSeconds ((k.getLast hne).t) ≤ todSeconds x.t := by
  induction k with
  | nil => exact absurd rfl hne
  | cons a t ih =>
    intro x hx
    cases t with
    | nil =>
      rcases List.mem_cons.mp hx with rfl | hx
      · exact le_refl _
      · simp at hx
    | cons b t' =>
      rw [List.getLast_cons (by simp : (b :: t') ≠ [])]
      rcases List.mem_cons.mp hx with rfl | hx
      · exact List.rel_of_sorted_cons hs _ (List.getLast_mem _)
      · exact ih (by simp) hs.of_cons x hx

lemma flow_calc_cons_cons (x y : Reading) (rest : List Reading) :
    flow_calc (x :: y :: rest) = mkIntervalRow x y.flow :: flow_calc (y :: rest) := by
  rw [flow_calc_eq_pairs, flow_calc_eq_pairs]
  rfl

/-- The emitted rows are exactly the non-trailing key readings, in order. -/
lemma flow_calc_map_t (k : List Reading) :
    (flow_calc k).map IntervalRow.t = k.dropLast.map Reading.t := by
  induction k with
  | nil => rfl
  | cons x l ih =>
    cases l with
    | nil => rfl
    | cons y ys =>
      rw [flow_calc_cons_cons, List.dropLast_cons_of_ne_nil (by simp)]
      simpa [mkIntervalRow] using ih

/-- The signed volumes of the emitted rows telescope to
`1000 * (head flow − last flow)` when every key flow is numeric. -/
lemma flow_calc_sum (k : List Reading) (hne : k ≠ []) (hnum : ∀ r ∈ k, r.flow.isSome) :
    ((flow_calc k).map (fun row => row.volume.getD 0)).sum =
      1000 * ((k.head hne).flow.getD 0 - (k.getLast hne).flow.getD 0) := by
  induction k with
  | nil => exact absurd rfl hne
  | cons x l ih =>
    cases l with
    | cons y ys =>
      obtain ⟨vx, hvx⟩ := Option.isSome_iff_exists.mp (hnum x (by simp))
      obtain ⟨vy, hvy⟩ := Option.isSome_iff_exists.mp (hnum y (by simp))
      rw [flow_calc_cons_cons]
      have hrec := ih (by simp) (fun r hr => hnum r (List.mem_cons_of_mem x hr))
      rw [List.map_cons, List.sum_cons, hrec]
      rw [List.getLast_cons (by simp : (y :: ys) ≠ [])]
      simp only [List.head_cons, mkIntervalRow, oVolume, hvx, hvy, Option.getD_some]
      ring
    | nil => simp [flow_calc, shiftedFlows, mkIntervalRow, oVolume,
        Option.isSome_iff_exists.mp (hnum x (by simp))]

/-- C3: the key-reading set consists exactly of the readings whose gap
column entry exceeds 360 together with the head of the descending-sorted
sequence; hence for a non-empty day the latest-time reading is a key
reading. -/
theorem key_reading_set_characterization (l : List Reading) :
    (∀ r : Reading, r ∈ keyReadings l ↔
      ((∃ p ∈ (sortDesc l).zip (gapsOf (sortDesc l)), 360 < p.2 ∧ p.1 = r) ∨
        (sortDesc l).head? = some r)) ∧
    (l ≠ [] → ∃ r ∈ keyReadings l, ∀ x ∈ l, todSeconds x.t ≤ todSeconds r.t) := by
  have hmem : ∀ r : Reading, r ∈ keyReadings l ↔
      ((∃ p ∈ (sortDesc l).zip (gapsOf (sortDesc l)), 360 < p.2 ∧ p.1 = r) ∨
        (sortDesc l).head? = some r) := by
    intro r
    rw [keyReadings, selectKeys, mem_sortDesc, keyCandidates, List.mem_append,
      mem_take_one]
    simp only [List.mem_map, List.mem_filter, decide_eq_true_eq]
    constructor
    · rintro (⟨p, ⟨hp, hgt⟩, hpr⟩ | hh)
      · exact Or.inl ⟨p, hp, hgt, hpr⟩
      · exact Or.inr hh
    · rintro (⟨p, hp, hgt, hpr⟩ | hh)
      · exact Or.inl ⟨p, ⟨hp, hgt⟩, hpr⟩
      · exact Or.inr hh
  refine ⟨hmem, fun hne => ?_⟩
  have hsne : sortDesc l ≠ [] := by
    intro h
    exact hne (List.eq_nil_of_length_eq_zero
      (by rw [← (List.perm_insertionSort byTimeDesc l).length_eq, ← sortDesc, h]; rfl))
  refine ⟨(sortDesc l).head hsne, ?_, ?_⟩
  · exact (hmem _).mpr (Or.inr (List.head?_eq_head hsne))
  · intro x hx
    exact sorted_desc_head_max (sortDesc l) hsne (sortDesc_sorted l) x
      (mem_sortDesc.mpr hx)

/-- Witness for C3's anchor conjunct at a concrete two-reading day. -/
theorem key_reading_set_characterization_witness :
    ∃ r ∈ keyReadings [⟨⟨9, 0, 0⟩, some 1⟩, ⟨⟨10, 0, 0⟩, some 2⟩],
      ∀ x ∈ [(⟨⟨9, 0, 0⟩, some 1⟩ : Reading), ⟨⟨10, 0, 0⟩, some 2⟩],
        todSeconds x.t ≤ todSeconds r.t :=
  (key_reading_set_characterization [⟨⟨9, 0, 0⟩, some 1⟩, ⟨⟨10, 0, 0⟩, some 2⟩]).2
    (by simp)

/-- Reading at 10:00:00 used by the C5 example day. -/
def c5r1 : Reading := ⟨⟨10, 0, 0⟩, some 3⟩

/-- Reading at 09:59:00 used by the C5 example day. -/
def c5r2 : Reading := ⟨⟨9, 59, 0⟩, some 2⟩

/-- Reading at 09:00:00 used by the C5 example day. -/
def c5r3 : Reading := ⟨⟨9, 0, 0⟩, some 1⟩

lemma c5_sortDesc : sortDesc [c5r1, c5r2, c5r3] = [c5r1, c5r2, c5r3] := by
  norm_num [sortDesc, List.insertionSort, List.orderedInsert, byTimeDesc, todSeconds,
    c5r1, c5r2, c5r3]

lemma c5_gaps : gapsOf (sortDesc [c5r1, c5r2, c5r3]) = [0, 60, 3540] := by
  rw [c5_sortDesc]
  norm_num [gapsOf, time_diff_seconds, todSeconds, c5r1, c5r2, c5r3]

lemma c5_keys : keyReadings [c5r1, c5r2, c5r3] = [c5r1, c5r3] := by
  rw [keyReadings, c5_sortDesc, selectKeys, keyCandidates]
  norm_num [gapsOf, time_diff_seconds, todSeconds, sortDesc, List.insertionSort,
    List.orderedInsert, byTimeDesc, c5r1, c5r2, c5r3]

lemma c5_keys_ne : keyReadings [c5r1, c5r2, c5r3] ≠ [] := by
  rw [c5_keys]
  simp

/-- Counterexample to C5 as stated: in the descending sort
`[c5r1, c5r2, c5r3]` the consecutive pair `(c5r2, c5r3)` has gap
3540 s > 360 s, yet its earlier-in-sort-order (chronologically later)
member `c5r2` is not in the key-reading set — the code selects the row
whose own gap column entry exceeds 360, i.e. the later-in-sort-order
member `c5r3`. -/
theorem gap_pair_earlier_member_counterexample :
    sortDesc [c5r1, c5r2, c5r3] = [c5r1, c5r2, c5r3] ∧
    gapsOf (sortDesc [c5r1, c5r2, c5r3]) = [0, 60, 3540] ∧
    c5r2 ∉ keyReadings [c5r1, c5r2, c5r3] ∧
    keyReadings [c5r1, c5r2, c5r3] = [c5r1, c5r3] := by
  refine ⟨c5_sortDesc, c5_gaps, ?_, c5_keys⟩
  rw [c5_keys]
  norm_num [c5r1, c5r2, c5r3]

/-- C5 amended: for every consecutive pair of readings in the descending
time-of-day sort whose gap exceeds 360 seconds, the *later*-in-sort-order
member of the pair (the chronologically *earlier* reading) is in the
key-reading set. -/
theorem gap_pair_later_member_key (l : List Reading) (i : Nat) (a b : Reading)
    (ha : (sortDesc l)[i]? = some a) (hb : (sortDesc l)[i + 1]? = some b)
    (hgap : 360 < time_diff_seconds (some a.t) (some b.t)) :
    b ∈ keyReadings l := by
  have hg : (gapsOf (sortDesc l))[i + 1]? =
      some (time_diff_seconds (some a.t) (some b.t)) :=
    gapsOf_getElem?_succ (sortDesc l) i a b ha hb
  have hzip : ((sortDesc l).zip (gapsOf (sortDesc l)))[i + 1]? =
      some (b, time_diff_seconds (some a.t) (some b.t)) := by
    rw [List.zip_eq_zipWith]
    simp [List.getElem?_zipWith, hb, hg]
  have hmem : (b, time_diff_seconds (some a.t) (some b.t)) ∈
      (sortDesc l).zip (gapsOf (sortDesc l)) := List.getElem?_mem hzip
  rw [keyReadings, selectKeys, mem_sortDesc, keyCandidates, List.mem_append]
  exact Or.inl (List.mem_map.mpr
    ⟨(b, time_diff_seconds (some a.t) (some b.t)),
      List.mem_filter.mpr ⟨hmem, by simpa using hgap⟩, rfl⟩)

/-- Witness for the amended C5 on the example day: the chronologically
earlier member `c5r3` of the large-gap pair is a key reading. -/
theorem gap_pair_later_member_key_witness :
    c5r3 ∈ keyReadings [c5r1, c5r2, c5r3] :=
  gap_pair_later_member_key [c5r1, c5r2, c5r3] 1 c5r2 c5r3
    (by rw [c5_sortDesc]; rfl) (by rw [c5_sortDesc]; rfl)
    (by norm_num [time_diff_seconds, todSeconds, c5r2, c5r3])

/-- C7: the emitted interval rows are exactly the key readings other than
the trailing one (same times, same order); the trailing key reading is the
chronologically earliest, and (when key times are distinct) its time never
occurs among the emitted rows. -/
theorem trailing_drop (l : List Reading) (hne : keyReadings l ≠ []) :
    ((flow_calc (keyReadings l)).map IntervalRow.t =
      (keyReadings l).dropLast.map Reading.t) ∧
    (∀ x ∈ keyReadings l,
      todSeconds (((keyReadings l).getLast hne).t) ≤ todSeconds x.t) ∧
    (((keyReadings l).map Reading.t).Nodup →
      ((keyReadings l).getLast hne).t ∉
        (flow_calc (keyReadings l)).map IntervalRow.t) := by
  refine ⟨flow_calc_map_t _, ?_, ?_⟩
  · exact sorted_desc_getLast_le _ hne (keyReadings_sorted l)
  · intro hnd hmem
    rw [flow_calc_map_t] at hmem
    have hsplit : (keyReadings l).dropLast.map Reading.t ++
        [((keyReadings l).getLast hne).t] = (keyReadings l).map Reading.t := by
      conv_rhs => rw [← List.dropLast_concat_getLast hne]
      rw [List.map_append]
      rfl
    rw [← hsplit] at hnd
    exact (List.disjoint_of_nodup_append hnd) hmem (by simp)

/-- Witness for C7 at a concrete day whose key set has two readings. -/
theorem trailing_drop_witness :
    ((flow_calc (keyReadings [c5r1, c5r2, c5r3])).map IntervalRow.t =
      (keyReadings [c5r1, c5r2, c5r3]).dropLast.map Reading.t) ∧
    (∀ x ∈ keyReadings [c5r1, c5r2, c5r3],
      todSeconds (((keyReadings [c5r1, c5r2, c5r3]).getLast c5_keys_ne).t) ≤
        todSeconds x.t) ∧
    (((keyReadings [c5r1, c5r2, c5r3]).map Reading.t).Nodup →
      ((keyReadings [c5r1, c5r2, c5r3]).getLast c5_keys_ne).t ∉
        (flow_calc (keyReadings [c5r1, c5r2, c5r3])).map IntervalRow.t) :=
  trailing_drop [c5r1, c5r2, c5r3] c5_keys_ne

/-- C9: a day with fewer than two readings yields zero intervals and no
error (the embedding is total); with exactly one reading the key set is
that single anchor and the trailing drop leaves no rows. -/
theorem few_readings_no_intervals (l : List Reading) (h : l.length ≤ 1) :
    flow_calc (keyReadings l) = [] ∧
    (l = [] → keyReadings l = []) ∧
    (∀ x, l = [x] → keyReadings l = [x]) := by
  match l with
  | [] => exact ⟨rfl, fun _ => rfl, fun x hx => by cases hx⟩
  | [x] =>
    have hkey : keyReadings [x] = [x] := by
      simp [keyReadings, selectKeys, sortDesc, keyCandidates, gapsOf,
        time_diff_seconds, List.insertionSort]
    refine ⟨?_, by simp, fun y hy => by cases hy; exact hkey⟩
    rw [hkey]
    rfl
  | x :: y :: t => simp at h

/-- Witness for C9 at a concrete one-reading day. -/
theorem few_readings_no_intervals_witness :
    flow_calc (keyReadings [c5r1]) = [] ∧
    ([c5r1] = ([] : List Reading) → keyReadings [c5r1] = []) ∧
    (∀ x, [c5r1] = [x] → keyReadings [c5r1] = [x]) :=
  few_readings_no_intervals [c5r1] (by decide)

/-- C10: when every key reading's flow is numeric, the signed emitted
volumes telescope to `1000 *` (flow of the latest-in-time key reading
minus flow of the earliest-in-time key reading); the head of the key list
is the latest-in-time and its last element the earliest-in-time. -/
theorem telescoping_sum (l : List Reading) (hne : keyReadings l ≠ [])
    (hnum : ∀ r ∈ keyReadings l, r.flow.isSome) :
    ((flow_calc (keyReadings l)).map (fun row => row.volume.getD 0)).sum =
      1000 * (((keyReadings l).head hne).flow.getD 0 -
        ((keyReadings l).getLast hne).flow.getD 0) ∧
    (∀ x ∈ keyReadings l,
      todSeconds x.t ≤ todSeconds (((keyReadings l).head hne).t)) ∧
    (∀ x ∈ keyReadings l,
      todSeconds (((keyReadings l).getLast hne).t) ≤ todSeconds x.t) := by
  refine ⟨flow_calc_sum _ hne hnum, ?_, ?_⟩
  · exact sorted_desc_head_max _ hne (keyReadings_sorted l)
  · exact sorted_desc_getLast_le _ hne (keyReadings_sorted l)

/-- Witness for C10 at the concrete three-reading day (key set
`[c5r1, c5r3]`, one emitted interval of volume `1000 * (3 - 1)`). -/
theorem telescoping_sum_witness :
    ((flow_calc (keyReadings [c5r1, c5r2, c5r3])).map
        (fun row => row.volume.getD 0)).sum =
      1000 * (((keyReadings [c5r1, c5r2, c5r3]).head c5_keys_ne).flow.getD 0 -
        ((keyReadings [c5r1, c5r2, c5r3]).getLast c5_keys_ne).flow.getD 0) ∧
    (∀ x ∈ keyReadings [c5r1, c5r2, c5r3],
      todSeconds x.t ≤
        todSeconds (((keyReadings [c5r1, c5r2, c5r3]).head c5_keys_ne).t)) ∧
    (∀ x ∈ keyReadings [c5r1, c5r2, c5r3],
      todSeconds (((keyReadings [c5r1, c5r2, c5r3]).getLast c5_keys_ne).t) ≤
        todSeconds x.t) :=
  telescoping_sum [c5r1, c5r2, c5r3] c5_keys_ne
    (by
      rw [c5_keys]
      intro r hr
      fin_cases hr <;> rfl)

/-! ### The `app.py` interval-listing paths -/

/-- One reading with its full report timestamp (`上报时间`) in seconds, as
used by the `app.py` paths; `none` models a `NaN` cumulative flow. -/
structure DReading where
  t : Int
  flow : Option ℚ
deriving DecidableEq, Repr

/-- The ascending `sort_values('上报时间')` order. -/
def byTimeAsc (a b : DReading) : Prop := a.t ≤ b.t

instance : DecidableRel byTimeAsc := fun a b => by
  unfold byTimeAsc; infer_instance

instance : IsTotal DReading byTimeAsc := ⟨fun a b => le_total a.t b.t⟩

instance : IsTrans DReading byTimeAsc := ⟨fun _ _ _ h1 h2 => le_trans h1 h2⟩

/-- Sort ascending by report time. -/
def sortAsc (l : List DReading) : List DReading := List.insertionSort byTimeAsc l

/-- The `时间差秒` column of `compute_intervals_keypoints`: seconds since
the previous row (`prev_time = 上报时间.shift(1)`), `NaN` on the head row. -/
def dgaps (s : List DReading) : List (Option Int) :=
  List.zipWith (fun p c => p.map fun q => c.t - q.t)
    ((none : Option DReading) :: s.map some) s

/-- The `时间差秒 > 360` mask; comparing `NaN` yields false. -/
def gapGt360 (g : Option Int) : Bool :=
  match g with
  | some g => 360 < g
  | none => false

/-- `wm2` of `compute_intervals_keypoints`: the gap-filtered rows plus the
first row, re-sorted ascending (input `s` is the ascending-sorted frame). -/
def keypointRows (s : List DReading) : List DReading :=
  sortAsc ((((s.zip (dgaps s)).filter fun p => gapGt360 p.2).map Prod.fst) ++ s.take 1)

/-- The classification masks of `app.py`: the label column starts at
`零星用水` (small use), then `区间流量 > 25` is overwritten to `冲洗用水`
(flushing) and the `(6.5, 25]` band to `桶箱用水` (bucket). -/
def assignBehaviorCN (v : ℚ) : String :=
  let b := "零星用水"
  let b := if 25 < v then "冲洗用水" else b
  let b := if 6.5 < v ∧ v ≤ 25 then "桶箱用水" else b
  b

/-- The `app.py` masks on an optional volume: comparisons against `NaN`
are false, so a `NaN` volume keeps the default label. -/
def assignBehaviorCNO (v : Option ℚ) : String :=
  match v with
  | some x => assignBehaviorCN x
  | none => "零星用水"

/-- One output row of the `app.py` interval tables: report time, interval
volume and behavior label. -/
structure KRow where
  t : Int
  volume : Option ℚ
  behavior : String
deriving DecidableEq, Repr

/-- `compute_intervals_keypoints(day_df)`: ascending sort, key rows by
gap > 360 s plus the first row, adjacent flow difference scaled by 1000,
`pd.notna` filter, absolute value, then classification. -/
def compute_intervals_keypoints (l : List DReading) : List KRow :=
  match l with
  | [] => []
  | _ :: _ =>
    let w := keypointRows (sortAsc l)
    let rows := List.zipWith (fun r nf => (r.t, oVolume r.flow nf)) w
      ((w.tail.map fun r => r.flow) ++ [none])
    let rows := rows.filter fun p => p.2.isSome
    rows.map fun p =>
      { t := p.1, volume := p.2.map (fun v => |v|)
        behavior := assignBehaviorCNO (p.2.map fun v => |v|) }

/-- `compute_intervals(day_df)`: ascending sort, adjacent flow difference
scaled by 1000, `pd.notna` filter, strictly-positive filter, then
classification of the signed value (no absolute value). -/
def compute_intervals (l : List DReading) : List KRow :=
  match l with
  | [] => []
  | _ :: _ =>
    let s := sortAsc l
    let rows := List.zipWith (fun r nf => (r.t, oVolume r.flow nf)) s
      ((s.tail.map fun r => r.flow) ++ [none])
    let rows := rows.filter fun p => p.2.isSome
    let rows := rows.filter fun p =>
      match p.2 with
      | some v => decide (0 < v)
      | none => false
    rows.map fun p => { t := p.1, volume := p.2, behavior := assignBehaviorCNO p.2 }

/-- Every row emitted by `compute_intervals_keypoints` is the absolute
value of a computed (non-`NaN`) volume, classified by the `app.py` masks. -/
lemma keypoints_mem_structure (l : List DReading) (row : KRow)
    (hrow : row ∈ compute_intervals_keypoints l) :
    ∃ v0 : ℚ, row.volume = some |v0| ∧ row.behavior = assignBehaviorCN |v0| := by
  cases l with
  | nil => simp [compute_intervals_keypoints] at hrow
  | cons a l' =>
    simp only [compute_intervals_keypoints, List.mem_map, List.mem_filter] at hrow
    obtain ⟨p, ⟨-, hsome⟩, hrw⟩ := hrow
    obtain ⟨v0, hv0⟩ := Option.isSome_iff_exists.mp hsome
    exact ⟨v0, by simp [← hrw, hv0, assignBehaviorCNO]⟩

/-- Every row emitted by `compute_intervals` carries its strictly positive
signed volume, classified by the `app.py` masks. -/
lemma intervals_mem_structure (l : List DReading) (row : KRow)
    (hrow : row ∈ compute_intervals l) :
    ∃ v : ℚ, row.volume = some v ∧ 0 < v ∧ row.behavior = assignBehaviorCN v := by
  cases l with
  | nil => simp [compute_intervals] at hrow
  | cons a l' =>
    simp only [compute_intervals, List.mem_map, List.mem_filter] at hrow
    obtain ⟨p, ⟨⟨-, hsome⟩, hpos⟩, hrw⟩ := hrow
    obtain ⟨v, hv⟩ := Option.isSome_iff_exists.mp hsome
    rw [hv] at hpos
    simp only [decide_eq_true_eq] at hpos
    exact ⟨v, by simp [← hrw, hv, assignBehaviorCNO], hpos, by simp [← hrw, hv, assignBehaviorCNO]⟩

/-- 10:00:00, cumulative 1 m³ (C4 example day, `app.py` timestamps). -/
def c4d1 : DReading := ⟨36000, some 1⟩

/-- 11:00:00, cumulative 0.99 m³ — a 0.01 m³ counter decrease. -/
def c4d2 : DReading := ⟨39600, some 0.99⟩

/-- 11:00:00, cumulative unchanged at 1 m³ — a zero-volume interval. -/
def c4z2 : DReading := ⟨39600, some 1⟩

/-- 10:00:00, cumulative 1 m³ (C4 example day, chart-path readings). -/
def c4r1 : Reading := ⟨⟨10, 0, 0⟩, some 1⟩

/-- 11:00:00, cumulative 0.99 m³ (chart-path counterpart of `c4d2`). -/
def c4r2 : Reading := ⟨⟨11, 0, 0⟩, some 0.99⟩

/-- Counterexample to C4 as stated: the interval whose cumulative flow
decreased by 0.01 m³ is NOT excluded from the abs-taking interval-listing
path — `compute_intervals_keypoints` emits it with volume 10.0 L labeled
`桶箱用水` (Bucket); neither does that path filter non-positive volumes —
a zero-volume interval is emitted labeled `零星用水` (SmallUse).  The
signed chart path emits the decrease as −10.0 L, `Small Use` (this last
part of the claim is correct). -/
theorem abs_filter_policy_counterexample :
    compute_intervals_keypoints [c4d1, c4d2] = [⟨36000, some 10, "桶箱用水"⟩] ∧
    compute_intervals_keypoints [c4d1, c4z2] = [⟨36000, some 0, "零星用水"⟩] ∧
    flow_calc (keyReadings [c4r1, c4r2]) =
      [⟨⟨11, 0, 0⟩, some 0.99, some (-10), "Small Use"⟩] := by
  refine ⟨?_, ?_, ?_⟩
  · norm_num [compute_intervals_keypoints, keypointRows, sortAsc, dgaps, gapGt360,
      List.insertionSort, List.orderedInsert, byTimeAsc, oVolume,
      assignBehaviorCNO, assignBehaviorCN, abs_of_nonneg, c4d1, c4d2]
  · norm_num [compute_intervals_keypoints, keypointRows, sortAsc, dgaps, gapGt360,
      List.insertionSort, List.orderedInsert, byTimeAsc, oVolume,
      assignBehaviorCNO, assignBehaviorCN, c4d1, c4z2]
  · norm_num [flow_calc, keyReadings, selectKeys, sortDesc, keyCandidates, gapsOf,
      time_diff_seconds, todSeconds, byTimeDesc, List.insertionSort,
      List.orderedInsert, shiftedFlows, mkIntervalRow, oVolume, assignBehaviorO,
      assignBehavior, c4r1, c4r2]

/-- C4 amended: the spec's two properties belong to two different listing
paths — `compute_intervals_keypoints` replaces each volume by its absolute
value before bucketing (filtering only `NaN` volumes, keeping non-positive
ones), while `compute_intervals` filters out non-positive volumes and
classifies the signed value without taking absolute values. -/
theorem abs_filter_policy :
    (∀ (l : List DReading), ∀ row ∈ compute_intervals_keypoints l,
      ∃ v : ℚ, row.volume = some v ∧ 0 ≤ v ∧ row.behavior = assignBehaviorCN v) ∧
    (∀ (l : List DReading), ∀ row ∈ compute_intervals l,
      ∃ v : ℚ, row.volume = some v ∧ 0 < v ∧ row.behavior = assignBehaviorCN v) := by
  constructor
  · intro l row hrow
    obtain ⟨v0, h1, h2⟩ := keypoints_mem_structure l row hrow
    exact ⟨|v0|, h1, abs_nonneg v0, h2⟩
  · exact intervals_mem_structure

/-- Witness for C4's amended claim at the counter-decrease day. -/
theorem abs_filter_policy_witness :
    ∃ v : ℚ, (⟨36000, some 10, "桶箱用水"⟩ : KRow).volume = some v ∧ 0 ≤ v ∧
      (⟨36000, some 10, "桶箱用水"⟩ : KRow).behavior = assignBehaviorCN v :=
  abs_filter_policy.1 [c4d1, c4d2] ⟨36000, some 10, "桶箱用水"⟩
    (by norm_num [compute_intervals_keypoints, keypointRows, sortAsc, dgaps, gapGt360,
      List.insertionSort, List.orderedInsert, byTimeAsc, oVolume,
      assignBehaviorCNO, assignBehaviorCN, abs_of_nonneg, c4d1, c4d2])

/-- 10:00:00, cumulative 2 m³ (C8 example day, chart-path readings). -/
def c8r1 : Reading := ⟨⟨10, 0, 0⟩, some 2⟩

/-- 09:00:00, `NaN` cumulative flow (C8 example day). -/
def c8r2 : Reading := ⟨⟨9, 0, 0⟩, none⟩

/-- 08:00:00, cumulative 1 m³ (C8 example day). -/
def c8r3 : Reading := ⟨⟨8, 0, 0⟩, some 1⟩

/-- 10:00:00, cumulative 2 m³ (C8 example day, `app.py` timestamps). -/
def c8d1 : DReading := ⟨36000, some 2⟩

/-- 11:00:00, cumulative 3 m³ (C8 example day, `app.py` timestamps). -/
def c8d2 : DReading := ⟨39600, some 3⟩

/-- Counterexample to C8 as stated: in the chart path (`flow_calc`, and
identically `create_enhanced_figure_cn`) a `NaN` cumulative flow on the
middle key reading makes the volumes of BOTH emitted rows `NaN`, yet the
rows are not excluded from the emitted interval output — they appear with
an empty behavior label. -/
theorem nan_volume_counterexample :
    keyReadings [c8r1, c8r2, c8r3] = [c8r1, c8r2, c8r3] ∧
    flow_calc (keyReadings [c8r1, c8r2, c8r3]) =
      [⟨⟨10, 0, 0⟩, some 2, none, ""⟩, ⟨⟨9, 0, 0⟩, none, none, ""⟩] := by
  constructor <;>
    norm_num [flow_calc, keyReadings, selectKeys, sortDesc, keyCandidates, gapsOf,
      time_diff_seconds, todSeconds, byTimeDesc, List.insertionSort,
      List.orderedInsert, shiftedFlows, mkIntervalRow, oVolume, assignBehaviorO,
      assignBehavior, c8r1, c8r2, c8r3]

/-- C8 amended: `NaN` interval volumes are excluded (via the `pd.notna`
filter) from `compute_intervals_keypoints`, every row of which carries a
numeric volume; the chart path has no such filter — a `NaN`-volume row is
emitted there with an empty behavior label (unless it is the dropped
trailing row).  Both paths are total, so no exception is raised. -/
theorem nan_volume_policy :
    (∀ (l : List DReading), ∀ row ∈ compute_intervals_keypoints l,
      row.volume.isSome) ∧
    (∀ (k : List Reading), ∀ row ∈ flow_calc k,
      row.volume = none → row.behavior = "") := by
  constructor
  · intro l row hrow
    obtain ⟨v0, h1, -⟩ := keypoints_mem_structure l row hrow
    simp [h1]
  · intro k row hrow hv
    rw [flow_calc_eq_pairs] at hrow
    obtain ⟨i, h1, h2, he⟩ := mem_zipWith hrow
    subst he
    simp only [mkIntervalRow] at hv ⊢
    rw [hv]
    rfl

/-- Witness for C8's amended claim: a keypoints row has a numeric volume. -/
theorem nan_volume_policy_witness :
    (⟨36000, some 1000, "冲洗用水"⟩ : KRow).volume.isSome :=
  nan_volume_policy.1 [c8d1, c8d2] ⟨36000, some 1000, "冲洗用水"⟩
    (by norm_num [compute_intervals_keypoints, keypointRows, sortAsc, dgaps, gapGt360,
      List.insertionSort, List.orderedInsert, byTimeAsc, oVolume,
      assignBehaviorCNO, assignBehaviorCN, abs_of_nonneg, c8d1, c8d2])

end WaterBehavior
